import Mathlib

/-!
# Verification of the FantasyPros weekly-stats scraper

A shallow embedding of `src/fantasypros_scrape.py` and proofs of the
specification's claims about it.

Conventions of the embedding:
* Python strings are Lean `String`s; where the source uses `str.split` and
  `int(...)` we embed those library operations over the string's character
  list (`String.toList`), since a Python `str` is a sequence of characters.
* Python `int(s)` is embedded by `pyIntCore` / `pyInt`: surrounding
  whitespace is stripped, an optional single sign is allowed, and a
  non-empty run of decimal digits is required.  (Python additionally allows
  underscore digit grouping; no input considered here contains one.)
* `list(range(a, b))` is embedded by `rangeList a b`.
* Fallible Python code (raising `ValueError`, `requests` exceptions) is
  embedded with `Except`.
-/

deriving instance DecidableEq for Except

namespace FantasyProsScrape

/-- Python `s.split(sep)` for a single-character separator, on the character
list of the string: splits at every occurrence of `c`, keeping empty
pieces, and returns `[l]` when `c` does not occur. -/
def splitOnChar (c : Char) : List Char → List (List Char)
  | [] => [[]]
  | x :: xs =>
    if x = c then [] :: splitOnChar c xs
    else
      match splitOnChar c xs with
      | [] => [[x]]
      | y :: ys => (x :: y) :: ys

/-- The numeric value of a run of decimal digit characters. -/
def digitsToNat (l : List Char) : Nat :=
  l.foldl (fun acc ch => acc * 10 + (ch.toNat - 48)) 0

/-- Python `int(s)` on the character list of `s`: strip surrounding
whitespace, allow one optional sign, then require a non-empty digit run;
anything else raises `ValueError`. -/
def pyIntCore (l : List Char) : Except String Int :=
  let t := ((l.dropWhile Char.isWhitespace).reverse.dropWhile Char.isWhitespace).reverse
  match t with
  | '-' :: rest =>
    if rest ≠ [] ∧ rest.all Char.isDigit then .ok (-(digitsToNat rest : Int))
    else .error "ValueError: invalid literal for int"
  | '+' :: rest =>
    if rest ≠ [] ∧ rest.all Char.isDigit then .ok (digitsToNat rest : Int)
    else .error "ValueError: invalid literal for int"
  | rest =>
    if rest ≠ [] ∧ rest.all Char.isDigit then .ok (digitsToNat rest : Int)
    else .error "ValueError: invalid literal for int"

/-- Python `int(s)`. -/
def pyInt (s : String) : Except String Int := pyIntCore s.toList

/-- Python `list(range(a, b))`: the integers `a, a+1, …, b-1`, empty when
`b ≤ a`. -/
def rangeList (a b : Int) : List Int :=
  (List.range (b - a).toNat).map (fun i => a + Int.ofNat i)

/-- The unpacking `start, end = map(int, parts)` of the source, line 81:
`map` is lazy, so each part is converted in order until the unpacking
either succeeds (exactly two parts, both valid integers) or raises. -/
def unpackTwoInts (parts : List (List Char)) : Except String (Int × Int) :=
  match parts with
  | [a, b] =>
    match pyIntCore a with
    | .error m => .error m
    | .ok s =>
      match pyIntCore b with
      | .error m => .error m
      | .ok e => .ok (s, e)
  | [a] =>
    match pyIntCore a with
    | .error m => .error m
    | .ok _ => .error "ValueError: not enough values to unpack"
  | a :: b :: c :: _ =>
    match pyIntCore a with
    | .error m => .error m
    | .ok _ =>
      match pyIntCore b with
      | .error m => .error m
      | .ok _ =>
        match pyIntCore c with
        | .error m => .error m
        | .ok _ => .error "ValueError: too many values to unpack"
  | [] => .error "ValueError: not enough values to unpack"

/-- `parse_range_or_all` (source lines 77–84): `"all"` returns the supplied
full range unchanged; a value containing `"-"` is split on every `"-"` and
unpacked into two integer endpoints giving `list(range(start, end + 1))`;
anything else is parsed as a single integer. -/
def parse_range_or_all (value : String) (full_range : List Int) :
    Except String (List Int) :=
  if value = "all" then .ok full_range
  else if value.toList.contains '-' then
    match unpackTwoInts (splitOnChar '-' value.toList) with
    | .error e => .error e
    | .ok (s, e) => .ok (rangeList s (e + 1))
  else
    match pyInt value with
    | .error e => .error e
    | .ok n => .ok [n]

/-- `full_years` as computed in `main` (source line 110),
`list(range(2002, dt.now().year - 1))`, with the current calendar year
taken as an explicit input. -/
def full_years (currentYear : Int) : List Int :=
  rangeList 2002 (currentYear - 1)

/-- Whether an `Except` result is a success. -/
def exOk {ε α : Type} : Except ε α → Bool
  | .ok _ => true
  | .error _ => false

/-! ### Helper lemmas about `rangeList` -/

theorem rangeList_mem (a b n : Int) : n ∈ rangeList a b ↔ a ≤ n ∧ n < b := by
  unfold rangeList
  simp only [List.mem_map, List.mem_range, Int.ofNat_eq_coe]
  constructor
  · rintro ⟨i, hi, rfl⟩
    omega
  · rintro ⟨h1, h2⟩
    exact ⟨(n - a).toNat, by omega, by omega⟩

theorem rangeList_sorted (a b : Int) : (rangeList a b).Sorted (· < ·) := by
  unfold rangeList
  exact List.Pairwise.map _
    (fun x y h => by simp only [Int.ofNat_eq_coe]; omega)
    (List.sorted_lt_range _)

/-- When the split of the selector yields exactly the two pieces `a`, `b`
and both parse as integers, the range branch of `parse_range_or_all`
returns `list(range(s, e + 1))`. -/
theorem parse_range_branch (value : String) (a b : List Char) (s e : Int)
    (D : List Int)
    (hne : value ≠ "all")
    (hdash : value.toList.contains '-' = true)
    (hsplit : splitOnChar '-' value.toList = [a, b])
    (ha : pyIntCore a = .ok s) (hb : pyIntCore b = .ok e) :
    parse_range_or_all value D = .ok (rangeList s (e + 1)) := by
  unfold parse_range_or_all
  rw [if_neg hne]
  simp only [hdash, if_true]
  rw [hsplit]
  simp only [unpackTwoInts, ha, hb]

/-- `unpackTwoInts` succeeds exactly when the part list has exactly two
elements and both parse as integers. -/
theorem unpackTwoInts_ok_iff (parts : List (List Char)) :
    (∃ p, unpackTwoInts parts = .ok p) ↔
      ∃ a b s e, parts = [a, b] ∧ pyIntCore a = .ok s ∧ pyIntCore b = .ok e := by
  match parts with
  | [] => simp [unpackTwoInts]
  | [a] =>
    cases ha : pyIntCore a <;> simp [unpackTwoInts, ha]
  | [a, b] =>
    cases ha : pyIntCore a with
    | error m => simp [unpackTwoInts, ha]
    | ok s =>
      cases hb : pyIntCore b with
      | error m => simp [unpackTwoInts, ha, hb]
      | ok e =>
        constructor
        · intro _
          exact ⟨a, b, s, e, rfl, ha, hb⟩
        · intro _
          refine ⟨(s, e), ?_⟩
          simp [unpackTwoInts, ha, hb]
  | a :: b :: c :: rest =>
    cases ha : pyIntCore a <;> cases hb : pyIntCore b <;>
      cases hc : pyIntCore c <;> simp [unpackTwoInts, ha, hb, hc]

/-! ### Claims about the range selector -/

/-- **C8**: `resolve("all", D)` returns the supplied default range `D`
itself, unchanged and with order preserved, for every default range. -/
theorem c8_resolve_all_identity (D : List Int) :
    parse_range_or_all "all" D = .ok D := rfl

/-- **C9**: with the current calendar year `Y` an explicit input, the
Driver's default year range `list(range(2002, Y - 1))` is the ascending
sequence of exactly the years `2002, …, Y - 2`: it starts at the fixed
historical year 2002 and ends, inclusively, two years before `Y`. -/
theorem c9_default_year_range (Y : Int) :
    (full_years Y).Sorted (· < ·)
    ∧ ∀ n : Int, n ∈ full_years Y ↔ 2002 ≤ n ∧ n ≤ Y - 2 :=
  ⟨rangeList_sorted _ _,
   fun n => by unfold full_years; rw [rangeList_mem]; omega⟩

/-- **C3** (amended): for every selector that splits on `"-"` into exactly
two pieces, both parsing as integers `s ≤ e` — in particular the string
`"start-end"` for *nonnegative* `start ≤ end` — `resolve` returns the
ascending inclusive sequence `s, s+1, …, e`, independent of the default
range.  (As originally stated, over all integer endpoints, the claim fails
because a negative `start` makes the string split into more than two
pieces; see `c3_counterexample`.) -/
theorem c3_start_end_ascending (value : String) (a b : List Char)
    (s e : Int) (D : List Int)
    (hne : value ≠ "all")
    (hdash : value.toList.contains '-' = true)
    (hsplit : splitOnChar '-' value.toList = [a, b])
    (ha : pyIntCore a = .ok s) (hb : pyIntCore b = .ok e) (hse : s ≤ e) :
    parse_range_or_all value D = .ok (rangeList s (e + 1))
    ∧ (rangeList s (e + 1)).Sorted (· < ·)
    ∧ ∀ n : Int, n ∈ rangeList s (e + 1) ↔ s ≤ n ∧ n ≤ e :=
  ⟨parse_range_branch value a b s e D hne hdash hsplit ha hb,
   rangeList_sorted _ _,
   fun n => by rw [rangeList_mem]; omega⟩

/-- **C3** witness: `resolve("3-6", [])` is the ascending inclusive
sequence from 3 to 6. -/
theorem c3_witness :
    parse_range_or_all "3-6" [] = .ok (rangeList 3 (6 + 1))
    ∧ (rangeList 3 (6 + 1)).Sorted (· < ·)
    ∧ ((4 : Int) ∈ rangeList 3 (6 + 1) ↔ (3 : Int) ≤ 4 ∧ (4 : Int) ≤ 6) :=
  ⟨(c3_start_end_ascending "3-6" ['3'] ['6'] 3 6 [] (by decide) (by decide)
      (by decide) (by decide) (by decide) (by decide)).1,
   (c3_start_end_ascending "3-6" ['3'] ['6'] 3 6 [] (by decide) (by decide)
      (by decide) (by decide) (by decide) (by decide)).2.1,
   (c3_start_end_ascending "3-6" ['3'] ['6'] 3 6 [] (by decide) (by decide)
      (by decide) (by decide) (by decide) (by decide)).2.2 4⟩

/-- **C3** counterexample: for `start = -3 ≤ 6 = end`, the string
`"start-end"` is `"-3-6"`, and `resolve` raises (the string splits on
`"-"` into three pieces) instead of returning the ascending sequence from
-3 to 6. -/
theorem c3_counterexample :
    (-3 : Int) ≤ 6
    ∧ toString (-3 : Int) ++ "-" ++ toString (6 : Int) = "-3-6"
    ∧ rangeList (-3) (6 + 1) = [-3, -2, -1, 0, 1, 2, 3, 4, 5, 6]
    ∧ parse_range_or_all "-3-6" [] ≠ .ok [-3, -2, -1, 0, 1, 2, 3, 4, 5, 6]
    ∧ exOk (parse_range_or_all "-3-6" []) = false := by decide

/-- **C4**: for every range selector whose end precedes its start (both
endpoints parsing as integers, e.g. `"6-3"`), `resolve` returns the empty
sequence without raising an error; the bounds are not inverted. -/
theorem c4_inverted_range_empty (value : String) (a b : List Char)
    (s e : Int) (D : List Int)
    (hne : value ≠ "all")
    (hdash : value.toList.contains '-' = true)
    (hsplit : splitOnChar '-' value.toList = [a, b])
    (ha : pyIntCore a = .ok s) (hb : pyIntCore b = .ok e) (hlt : e < s) :
    parse_range_or_all value D = .ok [] := by
  rw [parse_range_branch value a b s e D hne hdash hsplit ha hb]
  have h0 : (e + 1 - s).toNat = 0 := by omega
  simp [rangeList, h0]

/-- **C4** witness: `resolve("6-3", [])` returns the empty sequence. -/
theorem c4_witness : parse_range_or_all "6-3" [] = .ok [] :=
  c4_inverted_range_empty "6-3" ['6'] ['3'] 6 3 [] (by decide) (by decide)
    (by decide) (by decide) (by decide) (by decide)

/-- **C10**: every selector other than `"all"` containing a `"-"` takes
the range branch, succeeding exactly when the string splits on `"-"` into
exactly two pieces that both parse as integers; in particular `"-5"` is
never accepted as a one-element selection, and `"1-2-3"` always raises. -/
theorem c10_dash_branch (value : String) (D : List Int)
    (hne : value ≠ "all") (hdash : value.toList.contains '-' = true) :
    (exOk (parse_range_or_all value D) = true ↔
      ∃ a b s e, splitOnChar '-' value.toList = [a, b]
        ∧ pyIntCore a = .ok s ∧ pyIntCore b = .ok e)
    ∧ exOk (parse_range_or_all "-5" D) = false
    ∧ exOk (parse_range_or_all "1-2-3" D) = false := by
  refine ⟨?_, rfl, rfl⟩
  unfold parse_range_or_all
  rw [if_neg hne]
  simp only [hdash, if_true]
  constructor
  · intro h
    cases hu : unpackTwoInts (splitOnChar '-' value.toList) with
    | error m => rw [hu] at h; simp [exOk] at h
    | ok p =>
      have hex : ∃ p, unpackTwoInts (splitOnChar '-' value.toList) = .ok p :=
        ⟨p, hu⟩
      rw [unpackTwoInts_ok_iff] at hex
      exact hex
  · rintro ⟨a, b, s, e, hsp, ha, hb⟩
    rw [hsp]
    simp only [unpackTwoInts, ha, hb]
    rfl

/-- **C10** witness: `"6-3"` (two valid integer parts) is accepted, while
`"-5"` and `"1-2-3"` are rejected. -/
theorem c10_witness :
    exOk (parse_range_or_all "6-3" []) = true
    ∧ exOk (parse_range_or_all "-5" []) = false
    ∧ exOk (parse_range_or_all "1-2-3" []) = false :=
  ⟨(c10_dash_branch "6-3" [] (by decide) (by decide)).1.mpr
      ⟨['6'], ['3'], 6, 3, by decide, by decide, by decide⟩,
   (c10_dash_branch "6-3" [] (by decide) (by decide)).2.1,
   (c10_dash_branch "6-3" [] (by decide) (by decide)).2.2⟩

/-! ### Table extraction (`fetch_week_data`, source lines 14–42)

The parsed HTML page is abstracted to the data the source reads from it:
whether a `<table id="data">` element is present, and if so the trimmed
(`get_text(strip=True)`) texts of its `<th>` cells (`headers`, line 29)
and, for every `<tr>` after the first one (line 31), the list of trimmed
texts of that row's `<td>` cells (`rows`, line 32). -/

/-- A pandas cell value: the scraped cells are strings; the synthetic
`year` and `week` columns are integers. -/
inductive Cell where
  | int (n : Int)
  | str (s : String)
deriving DecidableEq, Repr

/-- The `<table id="data">` element, reduced to what the source reads:
trimmed `<th>` texts and, per `<tr>` after the first, trimmed `<td>`
texts. -/
structure Table where
  headers : List String
  rows : List (List String)
deriving DecidableEq, Repr

/-- A pandas `DataFrame`, reduced to its column labels and its rows. -/
structure DataFrame where
  cols : List String
  data : List (List Cell)
deriving DecidableEq, Repr

/-- `pd.DataFrame()`: no columns, no rows. -/
def emptyDF : DataFrame := ⟨[], []⟩

/-- The row-selection condition of source line 33:
`if cells and len(cells) == len(headers)` — the row must be non-empty
(Python truthiness of the list) and its cell count must equal the header
count. -/
def keepRow (headers : List String) (cells : List String) : Bool :=
  !cells.isEmpty && cells.length == headers.length

/-- The table-processing part of `fetch_week_data` (source lines 29–42):
keep the rows selected by `keepRow`; if none remain return an empty
`DataFrame`; otherwise build the `DataFrame` with the header labels as
columns and then insert `week` and `year` (in that order) at position 0,
valued with the fetched week and year. -/
def extract (t : Table) (year week : Int) : DataFrame :=
  let rows := t.rows.filter (keepRow t.headers)
  if rows.isEmpty then emptyDF
  else
    { cols := "year" :: "week" :: t.headers,
      data := rows.map (fun cells =>
        Cell.int year :: Cell.int week :: cells.map Cell.str) }

/-- A console diagnostic printed by the program, reduced to its kind and
interpolated values. -/
inductive LogMsg where
  | fetching (position : String) (week year : Int)
  | httpStatus (status : Int)
  | noTable (position : String) (week year : Int)
  | scraping (position : String) (year : Int)
  | errorCaught
  | saved (n : Nat) (path : String)
  | noData (position : String) (year : Int)
deriving DecidableEq, Repr

/-- The outcome of `r.get(url, headers=HEADERS)` for one week: either the
request raises (timeout, connection failure, …) or it yields a response
with a status code and a page that may or may not contain the
`<table id="data">` element. -/
inductive HttpResult where
  | exc
  | resp (status : Int) (page : Option Table)
deriving DecidableEq, Repr

/-- `fetch_week_data` (source lines 14–42): log the fetch attempt, perform
the request; a raised request exception propagates (`.error ()`); a
non-200 status is logged and yields an empty `DataFrame`; a page without
the data table is logged and yields an empty `DataFrame`; otherwise the
table is extracted.  Returns the logs printed together with the result. -/
def fetch_week_data (res : HttpResult) (position : String)
    (week year : Int) : List LogMsg × Except Unit DataFrame :=
  match res with
  | .exc => ([.fetching position week year], .error ())
  | .resp status page =>
    if status ≠ 200 then
      ([.fetching position week year, .httpStatus status], .ok emptyDF)
    else
      match page with
      | none =>
        ([.fetching position week year, .noTable position week year],
         .ok emptyDF)
      | some t =>
        ([.fetching position week year], .ok (extract t year week))

/-- The emitted data of `extract`: exactly the kept rows, in table order,
each prefixed by the `year` and `week` values. -/
theorem extract_data (t : Table) (year week : Int) :
    (extract t year week).data
      = (t.rows.filter (keepRow t.headers)).map
          (fun cells => Cell.int year :: Cell.int week :: cells.map Cell.str) := by
  unfold extract
  by_cases hfe : (t.rows.filter (keepRow t.headers)).isEmpty
  · simp only [hfe, if_true]
    rw [List.isEmpty_iff.mp hfe]
    rfl
  · simp only [hfe, if_false]
    rfl

/-- If `extract` emitted any row, its columns are `year`, `week`, then the
table's header labels. -/
theorem extract_cols_of_mem (t : Table) (year week : Int) (row : List Cell)
    (h : row ∈ (extract t year week).data) :
    (extract t year week).cols = "year" :: "week" :: t.headers := by
  unfold extract at h ⊢
  by_cases hfe : (t.rows.filter (keepRow t.headers)).isEmpty
  · simp only [hfe, if_true] at h
    exact absurd h (by simp [emptyDF])
  · simp only [hfe, if_false]
    rfl

/-- The row-selection condition, written as the claim writes it, plus the
non-emptiness conjunct the source adds. -/
theorem keepRow_iff (headers : List String) (cells : List String) :
    keepRow headers cells
      = decide (cells ≠ [] ∧ cells.length = headers.length) := by
  cases cells with
  | nil => simp [keepRow]
  | cons x xs =>
    by_cases hx : xs.length + 1 = headers.length <;> simp [keepRow, hx]

/-- **C1** (amended): `extract` emits a StatRow for exactly those rows
after the header row that are *non-empty* and whose trimmed cell count
equals the header count, in table order, and silently discards every
other row; in particular, for a table with header `["A", "B"]` and rows
`[["1", "2"], ["x"]]`, exactly one StatRow is produced, from the valid
row.  (As originally stated the claim fails for an empty header row,
where the source's extra non-emptiness test `if cells and …` discards a
zero-cell row whose cell count does equal the header count; see
`c1_counterexample`.) -/
theorem c1_extract_emits_matching_rows (t : Table) (year week : Int) :
    (extract t year week).data
      = (t.rows.filter (fun cells =>
            decide (cells ≠ [] ∧ cells.length = t.headers.length))).map
          (fun cells => Cell.int year :: Cell.int week :: cells.map Cell.str)
    ∧ (extract ⟨["A", "B"], [["1", "2"], ["x"]]⟩ year week).data
        = [[Cell.int year, Cell.int week, Cell.str "1", Cell.str "2"]] := by
  constructor
  · rw [extract_data]
    congr 1
    exact List.filter_congr (fun cells _ => keepRow_iff t.headers cells)
  · rw [extract_data]
    rfl

/-- **C1** counterexample: for the table with an empty header list and one
empty row after the header row, the row's cell count (0) equals the
header count (0), so the claim as stated demands one StatRow, but
`extract` emits none. -/
theorem c1_counterexample :
    ((Table.mk [] [[]]).rows.filter (fun cells =>
        decide (cells.length = (Table.mk [] [[]]).headers.length))).length = 1
    ∧ (extract (Table.mk [] [[]]) 2023 1).data.length = 0 := by decide

/-- **C5**: on a page with no `<table id="data">` element, `fetch_week_data`
returns an empty dataset, not an error, and signals the condition
non-fatally via a logged "no table found" diagnostic. -/
theorem c5_no_table_empty_dataset (position : String) (week year : Int) :
    (fetch_week_data (.resp 200 none) position week year).2 = .ok emptyDF
    ∧ LogMsg.noTable position week year
        ∈ (fetch_week_data (.resp 200 none) position week year).1 :=
  ⟨rfl, by simp [fetch_week_data]⟩

/-- Every row an `.ok` result of `fetch_week_data` contains comes from a
successfully fetched table, carries `Cell.int year` and `Cell.int week` —
the year and week the row was fetched for — as its first two entries,
followed by the source row's string cells in order; and the dataset's
columns are `year`, `week`, then the table's header labels in original
order. -/
theorem fetch_row_schema (res : HttpResult) (position : String)
    (week year : Int) (df : DataFrame) (row : List Cell)
    (hok : (fetch_week_data res position week year).2 = .ok df)
    (hrow : row ∈ df.data) :
    ∃ t cells, res = .resp 200 (some t)
      ∧ df.cols = "year" :: "week" :: t.headers
      ∧ row = Cell.int year :: Cell.int week :: cells.map Cell.str
      ∧ cells ∈ t.rows := by
  cases res with
  | exc => exact absurd hok (by simp [fetch_week_data])
  | resp status page =>
    by_cases hs : status ≠ 200
    · have hdf : df = emptyDF := by
        have := hok
        simp only [fetch_week_data, if_pos hs] at this
        exact (Except.ok.injEq _ _ ▸ this).symm
      rw [hdf] at hrow
      exact absurd hrow (by simp [emptyDF])
    · have hs200 : status = 200 := by omega
      subst hs200
      cases page with
      | none =>
        have hdf : df = emptyDF := by
          have := hok
          simp only [fetch_week_data] at this
          exact (Except.ok.injEq _ _ ▸ this).symm
        rw [hdf] at hrow
        exact absurd hrow (by simp [emptyDF])
      | some t =>
        have hdf : df = extract t year week := by
          have := hok
          simp only [fetch_week_data] at this
          exact (Except.ok.injEq _ _ ▸ this).symm
        subst hdf
        have hcols := extract_cols_of_mem t year week row hrow
        rw [extract_data] at hrow
        obtain ⟨cells, hc, hrw⟩ := List.mem_map.mp hrow
        exact ⟨t, cells, rfl, hcols, hrw.symm, (List.mem_filter.mp hc).1⟩

/-! ### The per-(position, year) scraper (`scrape`, source lines 45–74)

The network is abstracted by a function `fetchRes : Int → HttpResult`
giving the outcome of the HTTP GET for each week.  The observable side
effects of a run — console prints, directory creation, file writes — are
collected in order into a trace of `Event`s. -/

/-- An observable side effect of `scrape`, in order of occurrence. -/
inductive Event where
  | log (m : LogMsg)
  | mkdir (path : String)
  | write (path : String) (df : DataFrame)
deriving DecidableEq, Repr

/-- The loop state of `scrape`: the accumulated non-empty weekly
DataFrames (`all_weeks`, source line 46) and the trace so far. -/
structure LoopState where
  all_weeks : List DataFrame
  events : List Event
deriving DecidableEq, Repr

/-- One iteration of the week loop (source lines 49–56): fetch the week
inside `try`; on success append the DataFrame to `all_weeks` when it is
non-empty; a raised exception is caught and logged (`print(f"Error: …")`)
and the loop continues.  (The `time.sleep` rate-limiting pause has no
observable effect and is not modelled.) -/
def scrape_week_step (fetchRes : Int → HttpResult) (position : String)
    (year : Int) (st : LoopState) (week : Int) : LoopState :=
  match fetch_week_data (fetchRes week) position week year with
  | (logs, .error _) =>
    { all_weeks := st.all_weeks,
      events := st.events ++ logs.map .log ++ [.log .errorCaught] }
  | (logs, .ok df) =>
    { all_weeks :=
        if df.data.isEmpty then st.all_weeks else st.all_weeks ++ [df],
      events := st.events ++ logs.map .log }

/-- `pd.concat(all_weeks, ignore_index=True)` (source line 59): rows are
stacked in list order.  Column alignment matters only when the weekly
DataFrames disagree on columns, which does not arise for one position's
tables; the labels are modelled as the ordered union of the inputs'
columns. -/
def concatDFs (dfs : List DataFrame) : DataFrame :=
  { cols := dfs.foldl
      (fun acc df => acc ++ df.cols.filter (fun c => !acc.contains c)) [],
    data := (dfs.map (fun df => df.data)).flatten }

/-- Python `s.lower()`, character by character (`ext = file_format.lower()`,
source line 62; the formats used are ASCII, where `Char.toLower` agrees
with Python). -/
def pyLower (s : String) : String :=
  String.mk (s.toList.map Char.toLower)

/-- `out_dir = os.path.join(output_dir, position)` (source line 60),
with `os.path.join` joining on `"/"` as on POSIX. -/
def outDir (output_dir position : String) : String :=
  output_dir ++ "/" ++ position

/-- `output_path = os.path.join(out_dir, f"{position}_{year}.{ext}")`
(source lines 62–63), where `ext = file_format.lower()`. -/
def outputPath (output_dir position : String) (year : Int)
    (file_format : String) : String :=
  outDir output_dir position ++ "/" ++ position ++ "_" ++ toString year
    ++ "." ++ pyLower file_format

/-- The write dispatch on the extension (source lines 65–70): exactly one
file write for csv, parquet or json, and none for any other extension. -/
def writeEvents (output_dir position : String) (year : Int)
    (file_format : String) (year_df : DataFrame) : List Event :=
  if pyLower file_format = "csv" then
    [.write (outputPath output_dir position year file_format) year_df]
  else if pyLower file_format = "parquet" then
    [.write (outputPath output_dir position year file_format) year_df]
  else if pyLower file_format = "json" then
    [.write (outputPath output_dir position year file_format) year_df]
  else []

/-- The events of lines 58–74, which depend only on the collected
`all_weeks`: if any weekly DataFrame was collected, concatenate them,
create the output directory, dispatch the write and report the row count;
otherwise report that no data was scraped. -/
def scrapeTail (position : String) (year : Int)
    (output_dir file_format : String) (all_weeks : List DataFrame) :
    List Event :=
  if all_weeks.isEmpty then
    [.log (.noData position year)]
  else
    [.mkdir (outDir output_dir position)]
      ++ writeEvents output_dir position year file_format
          (concatDFs all_weeks)
      ++ [.log (.saved (concatDFs all_weeks).data.length
            (outputPath output_dir position year file_format))]

/-- The tail of `scrape` after the week loop (source lines 58–74),
appended to the trace accumulated by the loop. -/
def scrapeFinish (position : String) (year : Int)
    (output_dir file_format : String) (st : LoopState) : List Event :=
  st.events ++ scrapeTail position year output_dir file_format st.all_weeks

/-- `scrape` (source lines 45–74): log the start, run the week loop over
`weeks`, then finish as `scrapeFinish` describes.  Returns the ordered
trace of observable events. -/
def scrape (fetchRes : Int → HttpResult) (position : String) (year : Int)
    (weeks : List Int) (output_dir : String) (file_format : String) :
    List Event :=
  scrapeFinish position year output_dir file_format
    (weeks.foldl (scrape_week_step fetchRes position year)
      { all_weeks := [], events := [.log (.scraping position year)] })

/-- The weekly DataFrame week `week` contributes to `all_weeks`: `none`
when the fetch raises or yields an empty DataFrame. -/
def weekDf (fetchRes : Int → HttpResult) (position : String)
    (year week : Int) : Option DataFrame :=
  match fetch_week_data (fetchRes week) position week year with
  | (_, .error _) => none
  | (_, .ok df) => if df.data.isEmpty then none else some df

/-- The events one iteration of the week loop appends to the trace. -/
def weekEvents (fetchRes : Int → HttpResult) (position : String)
    (year week : Int) : List Event :=
  match fetch_week_data (fetchRes week) position week year with
  | (logs, .error _) => logs.map .log ++ [.log .errorCaught]
  | (logs, .ok _) => logs.map .log

/-- All events the week loop appends over a week list, in order. -/
def loopEvents (fetchRes : Int → HttpResult) (position : String)
    (year : Int) (weeks : List Int) : List Event :=
  (weeks.map (weekEvents fetchRes position year)).flatten

/-- The file writes a trace contains, in order. -/
def writesOf (tr : List Event) : List (String × DataFrame) :=
  tr.filterMap (fun e =>
    match e with
    | .write p df => some (p, df)
    | _ => none)

/-- One loop iteration, in closed form: it appends the week's DataFrame
contribution (if any) and the week's events. -/
theorem scrape_week_step_eq (fetchRes : Int → HttpResult)
    (position : String) (year : Int) (st : LoopState) (week : Int) :
    scrape_week_step fetchRes position year st week =
      { all_weeks :=
          st.all_weeks ++ (weekDf fetchRes position year week).toList,
        events := st.events ++ weekEvents fetchRes position year week } := by
  unfold scrape_week_step weekDf weekEvents
  cases h : fetch_week_data (fetchRes week) position week year with
  | mk logs r =>
    cases r with
    | error e => simp
    | ok df =>
      by_cases hd : df.data.isEmpty <;> simp [hd]

/-- The whole week loop, in closed form. -/
theorem scrape_loop (fetchRes : Int → HttpResult) (position : String)
    (year : Int) (weeks : List Int) (st : LoopState) :
    weeks.foldl (scrape_week_step fetchRes position year) st =
      { all_weeks :=
          st.all_weeks ++ weeks.filterMap (weekDf fetchRes position year),
        events := st.events ++ loopEvents fetchRes position year weeks } := by
  induction weeks generalizing st with
  | nil => simp [loopEvents]
  | cons w ws ih =>
    rw [List.foldl_cons, scrape_week_step_eq, ih]
    cases hw : weekDf fetchRes position year w <;>
      simp [loopEvents, hw, List.filterMap_cons]

/-- Per-week events contain no file write. -/
theorem writesOf_weekEvents (fetchRes : Int → HttpResult)
    (position : String) (year week : Int) :
    writesOf (weekEvents fetchRes position year week) = [] := by
  unfold weekEvents
  cases h : fetch_week_data (fetchRes week) position week year with
  | mk logs r =>
    cases r with
    | error e =>
      unfold writesOf
      rw [List.filterMap_append, List.filterMap_map]
      simp [List.filterMap]
    | ok df =>
      unfold writesOf
      rw [List.filterMap_map]
      simp [List.filterMap]

/-- `writesOf` distributes over trace concatenation. -/
theorem writesOf_append (a b : List Event) :
    writesOf (a ++ b) = writesOf a ++ writesOf b :=
  List.filterMap_append a b _

/-- The week loop writes no file. -/
theorem writesOf_loopEvents (fetchRes : Int → HttpResult)
    (position : String) (year : Int) (weeks : List Int) :
    writesOf (loopEvents fetchRes position year weeks) = [] := by
  induction weeks with
  | nil => rfl
  | cons w ws ih =>
    show writesOf ((weekEvents fetchRes position year w ::
      ws.map (weekEvents fetchRes position year)).flatten) = []
    rw [List.flatten_cons, writesOf_append,
      writesOf_weekEvents fetchRes position year w]
    exact ih

theorem writesOf_nil : writesOf [] = [] := rfl

theorem writesOf_log_cons (m : LogMsg) (tr : List Event) :
    writesOf (Event.log m :: tr) = writesOf tr := rfl

theorem writesOf_mkdir_cons (p : String) (tr : List Event) :
    writesOf (Event.mkdir p :: tr) = writesOf tr := rfl

theorem writesOf_write_cons (p : String) (df : DataFrame) (tr : List Event) :
    writesOf (Event.write p df :: tr) = (p, df) :: writesOf tr := rfl

/-- The write dispatch emits at most one write, whatever the format. -/
theorem writesOf_writeEvents_length (output_dir position : String)
    (year : Int) (file_format : String) (df : DataFrame) :
    (writesOf (writeEvents output_dir position year file_format df)).length
      ≤ 1 := by
  unfold writeEvents
  by_cases h1 : pyLower file_format = "csv"
  · simp [h1, writesOf_write_cons, writesOf_nil]
  · by_cases h2 : pyLower file_format = "parquet"
    · simp [h1, h2, writesOf_write_cons, writesOf_nil]
    · by_cases h3 : pyLower file_format = "json"
      · simp [h1, h2, h3, writesOf_write_cons, writesOf_nil]
      · simp [h1, h2, h3, writesOf_nil]

/-- For a format among the three the CLI admits, the write dispatch emits
exactly one write. -/
theorem writeEvents_valid (output_dir position : String) (year : Int)
    (file_format : String) (df : DataFrame)
    (hfmt : file_format ∈ ["csv", "parquet", "json"]) :
    writeEvents output_dir position year file_format df =
      [.write (outputPath output_dir position year file_format) df] := by
  simp only [List.mem_cons, List.mem_singleton, List.not_mem_nil,
    or_false] at hfmt
  unfold writeEvents
  rcases hfmt with rfl | rfl | rfl
  · rw [if_pos (by decide)]
  · rw [if_neg (by decide), if_pos (by decide)]
  · rw [if_neg (by decide), if_neg (by decide), if_pos (by decide)]

/-- Loop events decompose over a split of the week list. -/
theorem loopEvents_append (fetchRes : Int → HttpResult) (position : String)
    (year : Int) (a b : List Int) :
    loopEvents fetchRes position year (a ++ b) =
      loopEvents fetchRes position year a
        ++ loopEvents fetchRes position year b := by
  unfold loopEvents
  rw [List.map_append, List.flatten_append]

theorem loopEvents_cons (fetchRes : Int → HttpResult) (position : String)
    (year w : Int) (ws : List Int) :
    loopEvents fetchRes position year (w :: ws) =
      weekEvents fetchRes position year w
        ++ loopEvents fetchRes position year ws := by
  unfold loopEvents
  rw [List.map_cons, List.flatten_cons]

/-- `scrape` in closed form: the start log, then the per-week events, then
the tail determined by the collected weekly DataFrames. -/
theorem scrape_eq (fetchRes : Int → HttpResult) (position : String)
    (year : Int) (weeks : List Int) (output_dir file_format : String) :
    scrape fetchRes position year weeks output_dir file_format =
      Event.log (.scraping position year)
        :: (loopEvents fetchRes position year weeks
          ++ scrapeTail position year output_dir file_format
              (weeks.filterMap (weekDf fetchRes position year))) := by
  unfold scrape
  rw [scrape_loop]
  unfold scrapeFinish
  simp

/-- The tail after the loop for a non-empty collection and an admitted
format: create the directory, write the single file, report the count. -/
theorem scrapeTail_of_ne (position : String) (year : Int)
    (output_dir file_format : String) (aw : List DataFrame)
    (hne : aw ≠ [])
    (hfmt : file_format ∈ ["csv", "parquet", "json"]) :
    scrapeTail position year output_dir file_format aw =
      [.mkdir (outDir output_dir position),
       .write (outputPath output_dir position year file_format)
         (concatDFs aw),
       .log (.saved (concatDFs aw).data.length
         (outputPath output_dir position year file_format))] := by
  unfold scrapeTail
  rw [if_neg (by simpa using hne),
    writeEvents_valid output_dir position year file_format _ hfmt]
  rfl

/-- The tail after the loop never contains more than one write. -/
theorem writesOf_scrapeTail_length (position : String) (year : Int)
    (output_dir file_format : String) (aw : List DataFrame) :
    (writesOf (scrapeTail position year output_dir file_format aw)).length
      ≤ 1 := by
  unfold scrapeTail
  by_cases he : aw.isEmpty = true
  · rw [if_pos he]
    simp [writesOf_log_cons, writesOf_nil]
  · rw [if_neg he]
    simp only [List.singleton_append, List.cons_append, writesOf_append,
      writesOf_mkdir_cons, writesOf_log_cons, writesOf_nil, List.append_nil]
    exact writesOf_writeEvents_length output_dir position year file_format
      (concatDFs aw)

/-- **C2**: for every (position, year) pair, week list and admitted output
format, the scraper performs at most one file write; if every week
contributes no rows, no file is written at all; and if some week
contributes rows, exactly one file is written, after all per-week events,
with nothing but the final row-count report following it — so no partial
file for a pair is ever observable. -/
theorem c2_single_write_per_pair (fetchRes : Int → HttpResult)
    (position : String) (year : Int) (weeks : List Int)
    (output_dir file_format : String)
    (hfmt : file_format ∈ ["csv", "parquet", "json"]) :
    (writesOf
      (scrape fetchRes position year weeks output_dir file_format)).length ≤ 1
    ∧ ((∀ w ∈ weeks, weekDf fetchRes position year w = none) →
        writesOf (scrape fetchRes position year weeks output_dir file_format)
          = [])
    ∧ ((∃ w ∈ weeks, weekDf fetchRes position year w ≠ none) →
        ∃ path df post,
          scrape fetchRes position year weeks output_dir file_format =
            Event.log (.scraping position year)
              :: (loopEvents fetchRes position year weeks
                ++ Event.mkdir (outDir output_dir position)
                  :: Event.write path df :: post)
          ∧ writesOf post = []) := by
  rw [scrape_eq]
  have hwl := writesOf_loopEvents fetchRes position year weeks
  refine ⟨?_, ?_, ?_⟩
  · rw [writesOf_log_cons, writesOf_append, hwl, List.nil_append]
    exact writesOf_scrapeTail_length position year output_dir file_format _
  · intro hall
    have hnil : weeks.filterMap (weekDf fetchRes position year) = [] :=
      List.filterMap_eq_nil_iff.mpr hall
    rw [writesOf_log_cons, writesOf_append, hwl, List.nil_append, hnil]
    rfl
  · rintro ⟨w, hwmem, hwne⟩
    obtain ⟨df0, hdf0⟩ := Option.ne_none_iff_exists'.mp hwne
    have hmem : df0 ∈ weeks.filterMap (weekDf fetchRes position year) :=
      List.mem_filterMap.mpr ⟨w, hwmem, hdf0⟩
    have hne : weeks.filterMap (weekDf fetchRes position year) ≠ [] :=
      List.ne_nil_of_mem hmem
    rw [scrapeTail_of_ne position year output_dir file_format _ hne hfmt]
    exact ⟨outputPath output_dir position year file_format,
      concatDFs (weeks.filterMap (weekDf fetchRes position year)),
      [.log (.saved
        (concatDFs (weeks.filterMap (weekDf fetchRes position year))).data.length
        (outputPath output_dir position year file_format))],
      rfl, rfl⟩

/-- **C2** witness: with week 1 fetching a one-row table, the scrape of
("qb", 2023) over weeks `[1]` in csv format performs at most one write,
and exactly one write once week 1 contributed rows. -/
theorem c2_witness :
    (writesOf (scrape (fun _ => .resp 200 (some ⟨["A"], [["5"]]⟩))
      "qb" 2023 [1] "data" "csv")).length ≤ 1
    ∧ ∃ path df post,
        scrape (fun _ => .resp 200 (some ⟨["A"], [["5"]]⟩))
          "qb" 2023 [1] "data" "csv" =
          Event.log (.scraping "qb" 2023)
            :: (loopEvents (fun _ => .resp 200 (some ⟨["A"], [["5"]]⟩))
                "qb" 2023 [1]
              ++ Event.mkdir (outDir "data" "qb")
                :: Event.write path df :: post)
        ∧ writesOf post = [] :=
  ⟨(c2_single_write_per_pair (fun _ => .resp 200 (some ⟨["A"], [["5"]]⟩))
      "qb" 2023 [1] "data" "csv" (by decide)).1,
   (c2_single_write_per_pair (fun _ => .resp 200 (some ⟨["A"], [["5"]]⟩))
      "qb" 2023 [1] "data" "csv" (by decide)).2.2
      ⟨1, by decide, by decide⟩⟩

/-- A per-week fetch failure as C7 describes it: the request raised
(`requests` exception), or the response carried a non-2xx HTTP status. -/
def isFetchFailure (res : HttpResult) : Prop :=
  res = .exc ∨ ∃ s p, res = .resp s p ∧ ¬(200 ≤ s ∧ s ≤ 299)

/-- **C7**: during a scrape of one (position, year) pair, a per-week fetch
failure — a non-2xx status or a request-level exception — contributes no
rows, is logged (an `Error:` print for an exception, an `HTTP {status}`
print for a bad status), and never escapes: with the failing week `w0`
anywhere in the week list, the scraper produces exactly the trace it
would produce without `w0`, with only `w0`'s own log events spliced in —
every following week is processed identically and the file outcome is
identical. -/
theorem c7_week_failure_contained (fetchRes : Int → HttpResult)
    (position : String) (year : Int) (weeks1 weeks2 : List Int) (w0 : Int)
    (output_dir file_format : String)
    (hfail : isFetchFailure (fetchRes w0)) :
    weekDf fetchRes position year w0 = none
    ∧ (∃ m, Event.log m ∈ weekEvents fetchRes position year w0
        ∧ (m = .errorCaught ∨ ∃ s, m = .httpStatus s))
    ∧ (weeks1 ++ w0 :: weeks2).filterMap (weekDf fetchRes position year)
        = (weeks1 ++ weeks2).filterMap (weekDf fetchRes position year)
    ∧ ∃ tail,
        scrape fetchRes position year (weeks1 ++ w0 :: weeks2) output_dir
            file_format =
          Event.log (.scraping position year)
            :: (loopEvents fetchRes position year weeks1
              ++ weekEvents fetchRes position year w0
              ++ (loopEvents fetchRes position year weeks2 ++ tail))
        ∧ scrape fetchRes position year (weeks1 ++ weeks2) output_dir
            file_format =
          Event.log (.scraping position year)
            :: (loopEvents fetchRes position year weeks1
              ++ (loopEvents fetchRes position year weeks2 ++ tail)) := by
  have h1 : weekDf fetchRes position year w0 = none := by
    rcases hfail with hexc | ⟨s, p, hresp, hs⟩
    · unfold weekDf
      rw [hexc]
      rfl
    · unfold weekDf
      rw [hresp]
      have hs200 : s ≠ 200 := by omega
      simp only [fetch_week_data]
      rw [if_pos hs200]
      rfl
  have h2 : ∃ m, Event.log m ∈ weekEvents fetchRes position year w0
      ∧ (m = .errorCaught ∨ ∃ s, m = .httpStatus s) := by
    rcases hfail with hexc | ⟨s, p, hresp, hs⟩
    · refine ⟨.errorCaught, ?_, Or.inl rfl⟩
      unfold weekEvents
      rw [hexc]
      simp [fetch_week_data]
    · refine ⟨.httpStatus s, ?_, Or.inr ⟨s, rfl⟩⟩
      unfold weekEvents
      rw [hresp]
      have hs200 : s ≠ 200 := by omega
      simp only [fetch_week_data]
      rw [if_pos hs200]
      simp
  have hfm : (weeks1 ++ w0 :: weeks2).filterMap
      (weekDf fetchRes position year)
      = (weeks1 ++ weeks2).filterMap (weekDf fetchRes position year) := by
    rw [List.filterMap_append, List.filterMap_append, List.filterMap_cons,
      h1]
  refine ⟨h1, h2, hfm, ?_⟩
  refine ⟨scrapeTail position year output_dir file_format
    ((weeks1 ++ weeks2).filterMap (weekDf fetchRes position year)), ?_, ?_⟩
  · rw [scrape_eq, hfm, loopEvents_append, loopEvents_cons]
    simp [List.append_assoc]
  · rw [scrape_eq, loopEvents_append]
    simp [List.append_assoc]

/-- **C7** witness: with every request raising, week 2 in the list
`[1, 2, 3]` contributes no rows, is logged, and the scrape trace equals
the trace over `[1, 3]` with week 2's events spliced in. -/
theorem c7_witness :
    weekDf (fun _ => HttpResult.exc) "qb" 2023 2 = none
    ∧ (∃ m, Event.log m ∈ weekEvents (fun _ => HttpResult.exc) "qb" 2023 2
        ∧ (m = .errorCaught ∨ ∃ s, m = .httpStatus s))
    ∧ ([1] ++ 2 :: [3]).filterMap (weekDf (fun _ => HttpResult.exc) "qb" 2023)
        = ([1] ++ [3]).filterMap (weekDf (fun _ => HttpResult.exc) "qb" 2023)
    ∧ ∃ tail,
        scrape (fun _ => HttpResult.exc) "qb" 2023 ([1] ++ 2 :: [3]) "data"
            "csv" =
          Event.log (.scraping "qb" 2023)
            :: (loopEvents (fun _ => HttpResult.exc) "qb" 2023 [1]
              ++ weekEvents (fun _ => HttpResult.exc) "qb" 2023 2
              ++ (loopEvents (fun _ => HttpResult.exc) "qb" 2023 [3] ++ tail))
        ∧ scrape (fun _ => HttpResult.exc) "qb" 2023 ([1] ++ [3]) "data"
            "csv" =
          Event.log (.scraping "qb" 2023)
            :: (loopEvents (fun _ => HttpResult.exc) "qb" 2023 [1]
              ++ (loopEvents (fun _ => HttpResult.exc) "qb" 2023 [3] ++ tail)) :=
  c7_week_failure_contained (fun _ => HttpResult.exc) "qb" 2023 [1] [3] 2
    "data" "csv" (Or.inl rfl)

/-- A weekly DataFrame recorded by the loop came from a successful fetch. -/
theorem weekDf_some_ok (fetchRes : Int → HttpResult) (position : String)
    (year week : Int) (df : DataFrame)
    (h : weekDf fetchRes position year week = some df) :
    (fetch_week_data (fetchRes week) position week year).2 = .ok df := by
  unfold weekDf at h
  cases hf : fetch_week_data (fetchRes week) position week year with
  | mk logs r =>
    rw [hf] at h
    cases r with
    | error e => simp at h
    | ok df2 =>
      by_cases hd : df2.data.isEmpty = true
      · simp [hd] at h
      · simp only [hd, Bool.false_eq_true, if_false, Option.some.injEq] at h
        rw [h]

/-- A row of the concatenation comes from one of the inputs. -/
theorem mem_concatDFs_data (dfs : List DataFrame) (row : List Cell)
    (h : row ∈ (concatDFs dfs).data) : ∃ df ∈ dfs, row ∈ df.data := by
  unfold concatDFs at h
  simp only [List.mem_flatten, List.mem_map] at h
  obtain ⟨l, ⟨df, hdf, rfl⟩, hrow⟩ := h
  exact ⟨df, hdf, hrow⟩

theorem concat_fold_const (cs : List String) (rest : List DataFrame)
    (hall : ∀ df ∈ rest, df.cols = cs) :
    rest.foldl
      (fun acc df => acc ++ df.cols.filter (fun c => !acc.contains c)) cs
      = cs := by
  induction rest with
  | nil => rfl
  | cons df rest ih =>
    rw [List.foldl_cons]
    have hdf : df.cols = cs := hall df (by simp)
    have hstep : cs ++ df.cols.filter (fun c => !cs.contains c) = cs := by
      rw [hdf]
      have hnil : cs.filter (fun c => !cs.contains c) = [] :=
        List.filter_eq_nil_iff.mpr (fun a ha => by simp [ha])
      rw [hnil, List.append_nil]
    rw [hstep]
    exact ih (fun d hd => hall d (by simp [hd]))

/-- When all the concatenated DataFrames share the same columns, so does
the concatenation. -/
theorem concatDFs_cols_uniform (dfs : List DataFrame) (cs : List String)
    (hne : dfs ≠ []) (hall : ∀ df ∈ dfs, df.cols = cs) :
    (concatDFs dfs).cols = cs := by
  cases dfs with
  | nil => exact absurd rfl hne
  | cons df rest =>
    unfold concatDFs
    simp only [List.foldl_cons]
    have hdf : df.cols = cs := hall df (by simp)
    have hfirst : ([] : List String)
        ++ df.cols.filter (fun c => !([] : List String).contains c) = cs := by
      rw [hdf]
      simp
    rw [hfirst]
    exact concat_fold_const cs rest (fun d hd => hall d (by simp [hd]))

/-- A write the dispatch performed wrote exactly the DataFrame it was
given. -/
theorem writesOf_writeEvents_mem (output_dir position : String)
    (year : Int) (file_format : String) (df : DataFrame) (p : String)
    (wdf : DataFrame)
    (h : (p, wdf) ∈ writesOf (writeEvents output_dir position year
      file_format df)) :
    wdf = df := by
  unfold writeEvents at h
  by_cases h1 : pyLower file_format = "csv"
  · rw [if_pos h1, writesOf_write_cons, writesOf_nil] at h
    simp at h
    exact h.2
  · rw [if_neg h1] at h
    by_cases h2 : pyLower file_format = "parquet"
    · rw [if_pos h2, writesOf_write_cons, writesOf_nil] at h
      simp at h
      exact h.2
    · rw [if_neg h2] at h
      by_cases h3 : pyLower file_format = "json"
      · rw [if_pos h3, writesOf_write_cons, writesOf_nil] at h
        simp at h
        exact h.2
      · rw [if_neg h3, writesOf_nil] at h
        exact absurd h (by simp)

/-- Any file `scrape` writes holds the concatenation of the collected
weekly DataFrames — which were non-empty. -/
theorem writesOf_scrape (fetchRes : Int → HttpResult) (position : String)
    (year : Int) (weeks : List Int) (output_dir file_format path : String)
    (wdf : DataFrame)
    (h : (path, wdf) ∈ writesOf
      (scrape fetchRes position year weeks output_dir file_format)) :
    wdf = concatDFs (weeks.filterMap (weekDf fetchRes position year))
    ∧ weeks.filterMap (weekDf fetchRes position year) ≠ [] := by
  rw [scrape_eq, writesOf_log_cons, writesOf_append,
    writesOf_loopEvents, List.nil_append] at h
  unfold scrapeTail at h
  by_cases he : (weeks.filterMap (weekDf fetchRes position year)).isEmpty
    = true
  · rw [if_pos he, writesOf_log_cons, writesOf_nil] at h
    exact absurd h (by simp)
  · rw [if_neg he] at h
    refine ⟨?_, by simpa using he⟩
    simp only [List.singleton_append, List.cons_append, writesOf_mkdir_cons,
      writesOf_append, writesOf_log_cons, writesOf_nil, List.append_nil] at h
    exact writesOf_writeEvents_mem output_dir position year file_format _
      path wdf h

/-- **C6**: every StatRow `fetch_week_data` emits has the fetched `year`
and `week` as its first two values, under columns `year`, `week`, then
the source table's header labels in original order; and consequently in
every written dataset, every row carries `year` and the row's own fetched
week as its first two values followed by the source cells, and — the
weekly column sets being equal, as they are for one position's table —
the written columns are `year`, `week`, then the header labels. -/
theorem c6_year_week_schema :
    (∀ (res : HttpResult) (position : String) (week year : Int)
        (df : DataFrame) (row : List Cell),
      (fetch_week_data res position week year).2 = .ok df → row ∈ df.data →
      ∃ t cells, res = .resp 200 (some t)
        ∧ df.cols = "year" :: "week" :: t.headers
        ∧ row = Cell.int year :: Cell.int week :: cells.map Cell.str
        ∧ cells ∈ t.rows)
    ∧ (∀ (fetchRes : Int → HttpResult) (position : String) (year : Int)
        (weeks : List Int) (output_dir file_format path : String)
        (wdf : DataFrame),
      (path, wdf) ∈ writesOf
        (scrape fetchRes position year weeks output_dir file_format) →
      (∀ row ∈ wdf.data,
        ∃ w t cells, w ∈ weeks ∧ fetchRes w = .resp 200 (some t)
          ∧ row = Cell.int year :: Cell.int w :: cells.map Cell.str
          ∧ cells ∈ t.rows)
      ∧ ∀ hdrs : List String,
          (∀ df ∈ weeks.filterMap (weekDf fetchRes position year),
            df.cols = "year" :: "week" :: hdrs) →
          wdf.cols = "year" :: "week" :: hdrs) := by
  refine ⟨fetch_row_schema, ?_⟩
  intro fetchRes position year weeks output_dir file_format path wdf hmem
  obtain ⟨hwdf, hne⟩ := writesOf_scrape fetchRes position year weeks
    output_dir file_format path wdf hmem
  subst hwdf
  constructor
  · intro row hrow
    obtain ⟨df, hdfmem, hrowdf⟩ := mem_concatDFs_data _ _ hrow
    obtain ⟨w, hw, hWdf⟩ := List.mem_filterMap.mp hdfmem
    have hok := weekDf_some_ok fetchRes position year w df hWdf
    obtain ⟨t, cells, hres, hcols, hrww, hcellmem⟩ :=
      fetch_row_schema (fetchRes w) position w year df row hok hrowdf
    exact ⟨w, t, cells, hw, hres, hrww, hcellmem⟩
  · intro hdrs hall
    exact concatDFs_cols_uniform _ _ hne hall

/-- **C6** witness: a one-column, one-row table fetched for week 1 of 2023
yields the row `[year = 2023, week = 1, "5"]` under columns
`["year", "week", "A"]`. -/
theorem c6_witness :
    ∃ t cells,
      (HttpResult.resp 200 (some ⟨["A"], [["5"]]⟩)) = .resp 200 (some t)
      ∧ (DataFrame.mk ["year", "week", "A"]
          [[Cell.int 2023, Cell.int 1, Cell.str "5"]]).cols
          = "year" :: "week" :: t.headers
      ∧ [Cell.int 2023, Cell.int 1, Cell.str "5"]
          = Cell.int 2023 :: Cell.int 1 :: cells.map Cell.str
      ∧ cells ∈ t.rows :=
  c6_year_week_schema.1 (.resp 200 (some ⟨["A"], [["5"]]⟩)) "qb" 1 2023
    ⟨["year", "week", "A"], [[Cell.int 2023, Cell.int 1, Cell.str "5"]]⟩
    [Cell.int 2023, Cell.int 1, Cell.str "5"] (by decide) (by decide)
